import Mathlib

/-!
Verification of the `gormutils` Go package against its specification.

The package is glue code over an ORM: idempotent DDL helpers
(`EnsureForeignKey`, `EnsureConstraint`, `EnsureIndex`), a transactional
wrapper (`Transact`), migration orchestrators (`AutoMigrate`, `Drop`,
`Truncate`, `ResetDB`, with a second near-duplicate file providing
alternative `Truncate`/`ResetDB` definitions), and a struct-to-map utility
(`ToUpdateColumnsMap`).

The shallow embedding gives each function a Lean counterpart over explicit
doubles of its effectful dependencies: the database's responses are inputs
(error messages for each operation), and every side effect (DDL call, hook
invocation, log line, commit, rollback) is recorded in an explicit event
trace that the theorems inspect.
-/

namespace Gormutils

/-- A Go `error` value is identified by its message string; `Option Err`
is a nullable error (`none` is Go's `nil`). -/
abbrev Err := String

/-! ## Transact (src/dbutils.go lines 91-116)

`Transact` begins a transaction, runs the unit of work `f`, and in a
deferred function: recovers a panic (converting the payload to an error,
keeping it when it already is one, otherwise rendering it with `%+v`),
logs the panic with a stack trace, then rolls back when the error named
return is non-nil (logging, not returning, a rollback failure) and
otherwise commits, returning the commit error. -/

/-- The payload of a Go panic as `Transact` sees it: either a value
implementing `error`, or any other value, represented here by its
`fmt.Sprintf("%+v", r)` rendering. -/
inductive PanicPayload where
  | errVal (e : Err)
  | other (formatted : String)
deriving DecidableEq, Repr

/-- The behaviour of the unit of work `f` passed to `Transact`: it either
returns (an error or nil) or panics with some payload. -/
inductive FOutcome where
  | ret (e : Option Err)
  | panics (p : PanicPayload)
deriving DecidableEq, Repr

/-- Double of the transaction handle: the errors the database reports for
the commit and rollback operations of this transaction. -/
structure TxDB where
  commitErr : Option Err
  rollbackErr : Option Err
deriving DecidableEq, Repr

/-- Observable steps of one `Transact` run. -/
inductive TxEvent where
  | beginTx
  | commit
  | rollback
  | logPanic (e : Err)
  | stackTrace
  | logRollbackErr (e : Err)
deriving DecidableEq, Repr

/-- Result of one `Transact` run: the returned error and the event trace. -/
structure TransactResult where
  err : Option Err
  events : List TxEvent
deriving DecidableEq, Repr

/-- Embedding of `Transact` (src/dbutils.go:91). `err` is the named return:
after the body it is `f`'s returned error, or nil when `f` panicked; the
deferred function then overwrites it from a recovered panic, rolls back on
a non-nil error (logging a rollback failure), and commits otherwise. -/
def Transact (db : TxDB) (f : FOutcome) : TransactResult :=
  let bodyState : Option Err × List TxEvent :=
    match f with
    | .ret e => (e, [])
    | .panics p =>
      let e := match p with
        | .errVal e => e
        | .other s => s
      (some e, [TxEvent.logPanic e, TxEvent.stackTrace])
  match bodyState with
  | (some e, evs) =>
    let rbEvents := match db.rollbackErr with
      | some re => [TxEvent.rollback, TxEvent.logRollbackErr re]
      | none => [TxEvent.rollback]
    { err := some e, events := TxEvent.beginTx :: evs ++ rbEvents }
  | (none, evs) =>
    { err := db.commitErr, events := TxEvent.beginTx :: evs ++ [TxEvent.commit] }

/-- Number of commit calls in a `Transact` trace. -/
def commitCount (r : TransactResult) : Nat :=
  r.events.count TxEvent.commit

/-- Number of rollback calls in a `Transact` trace. -/
def rollbackCount (r : TransactResult) : Nat :=
  r.events.count TxEvent.rollback

/-- Claim C1: for every unit of work `f` given to `Transact`: if `f`
returns a non-nil error `e` without panicking, the transaction is rolled
back (a rollback failure is only logged — the result is still exactly `e`
for every possible rollback error), commit is never called, and `Transact`
returns exactly `e`; if `f` returns nil without panicking, commit is
called exactly once, rollback zero times, and `Transact` returns the
commit operation's error; and on every path exactly one of commit or
rollback happens. -/
theorem transact_error_and_success_paths (db : TxDB) (e : Err) :
    ((Transact db (.ret (some e))).err = some e ∧
      rollbackCount (Transact db (.ret (some e))) = 1 ∧
      commitCount (Transact db (.ret (some e))) = 0) ∧
    ((Transact db (.ret none)).err = db.commitErr ∧
      commitCount (Transact db (.ret none)) = 1 ∧
      rollbackCount (Transact db (.ret none)) = 0) ∧
    (∀ f : FOutcome,
      commitCount (Transact db f) + rollbackCount (Transact db f) = 1) := by
  refine ⟨?_, ?_, ?_⟩
  · cases h : db.rollbackErr <;>
      simp [Transact, commitCount, rollbackCount, h, List.count_cons]
  · simp [Transact, commitCount, rollbackCount, List.count_cons]
  · intro f
    cases f with
    | ret e =>
      cases e with
      | none => simp [Transact, commitCount, rollbackCount, List.count_cons]
      | some e' =>
        cases h : db.rollbackErr <;>
          simp [Transact, commitCount, rollbackCount, h, List.count_cons]
    | panics p =>
      cases p <;> cases h : db.rollbackErr <;>
        simp [Transact, commitCount, rollbackCount, h, List.count_cons]

/-- Claim C2: for every unit of work that panics: if the payload is an
error value, `Transact` returns that exact error; otherwise it returns an
error whose message is the payload's `%+v` rendering; in both cases the
panic is logged together with a stack trace, the transaction is rolled
back, and commit is never called. -/
theorem transact_panic_paths (db : TxDB) (e : Err) (s : String) :
    ((Transact db (.panics (.errVal e))).err = some e ∧
      rollbackCount (Transact db (.panics (.errVal e))) = 1 ∧
      commitCount (Transact db (.panics (.errVal e))) = 0 ∧
      TxEvent.logPanic e ∈ (Transact db (.panics (.errVal e))).events ∧
      TxEvent.stackTrace ∈ (Transact db (.panics (.errVal e))).events) ∧
    ((Transact db (.panics (.other s))).err = some s ∧
      rollbackCount (Transact db (.panics (.other s))) = 1 ∧
      commitCount (Transact db (.panics (.other s))) = 0 ∧
      TxEvent.logPanic s ∈ (Transact db (.panics (.other s))).events ∧
      TxEvent.stackTrace ∈ (Transact db (.panics (.other s))).events) := by
  constructor <;>
    (cases h : db.rollbackErr <;>
      simp [Transact, commitCount, rollbackCount, h, List.count_cons])

/-! ## keyMatcher and the idempotent DDL helpers (src/dbutils.go lines 13-89)

`keyMatcher = regexp.MustCompile(" ?\\(([^)]+)\\)?")` is used with
`ReplaceAllString(table, "_$1")`: every match — an optional leading space,
a literal `(`, a nonempty capture group of characters other than `)`, and
an optional closing `)` — is replaced by an underscore followed by the
capture group. The replacement is embedded below as a direct scanner with
the same leftmost, non-overlapping match semantics. -/

/-- If the head of a list starts with `)`, drop it; otherwise keep the list
(the regex's optional trailing `\)?`). -/
def kmDropParen (cs : List Char) : List Char :=
  if cs.head? = some ')' then cs.tail else cs

/-- Match `[^)]+\)?` at the front of `cs`: a maximal nonempty run of
characters other than `)` (the capture group), then an optional `)`.
Returns the capture group and the unconsumed remainder, or `none` when the
group would be empty. -/
def kmGroup : List Char → Option (List Char × List Char)
  | [] => none
  | c :: cs =>
    if c = ')' then none
    else
      match kmGroup cs with
      | some (g, r) => some (c :: g, r)
      | none => some ([c], kmDropParen cs)

theorem kmDropParen_length (cs : List Char) : (kmDropParen cs).length ≤ cs.length := by
  unfold kmDropParen
  split
  · cases cs <;> simp
  · exact Nat.le_refl _

theorem kmGroup_length :
    ∀ (cs g r : List Char), kmGroup cs = some (g, r) → r.length < cs.length := by
  intro cs
  induction cs with
  | nil => intro g r h; simp [kmGroup] at h
  | cons c cs ih =>
    intro g r h
    unfold kmGroup at h
    by_cases hc : c = ')'
    · simp [hc] at h
    · simp [hc] at h
      rcases hrec : kmGroup cs with _ | ⟨g', r'⟩
      · rw [hrec] at h
        simp at h
        have := kmDropParen_length cs
        simp [← h.2]
        omega
      · rw [hrec] at h
        simp at h
        have := ih g' r' hrec
        simp [← h.2]
        omega

/-- The replacement pass of `keyMatcher.ReplaceAllString(s, "_$1")` over the
characters of `s`: at each position, try to match an optional space, a
literal `(`, then `kmGroup`; on a match emit `_` followed by the capture
group and continue after the match, otherwise emit the character. -/
def kmScan : List Char → List Char
  | [] => []
  | c :: cs =>
    if c = '(' then
      match h : kmGroup cs with
      | some (g, r) => '_' :: (g ++ kmScan r)
      | none => '(' :: kmScan cs
    else if h2 : c = ' ' ∧ cs.head? = some '(' then
      match h : kmGroup cs.tail with
      | some (g, r) => '_' :: (g ++ kmScan r)
      | none => ' ' :: kmScan cs
    else
      c :: kmScan cs
termination_by cs => cs.length
decreasing_by
· have := kmGroup_length cs g r h
  simp
  omega
· simp
· have := kmGroup_length cs.tail g r h
  have ht : cs.tail.length ≤ cs.length := by cases cs <;> simp
  simp
  omega
· simp
· simp

/-- Embedding of `keyMatcher.ReplaceAllString(s, "_$1")` (src/dbutils.go:16,26). -/
def keyMatcherReplaceAll (s : String) : String := ⟨kmScan s.data⟩

/-- Postgres-dialect identifier quoting used by `scope.Quote` and
`scope.QuotedTableName`. -/
def pqQuote (name : String) : String := "\"" ++ name ++ "\""

/-- The expected already-exists message computed by `EnsureForeignKey`
(src/dbutils.go:26-27). -/
def fkExpectedMsg (sourceTable column table : String) : String :=
  "pq: constraint \"" ++ sourceTable ++ "_" ++ column ++ "_" ++
    keyMatcherReplaceAll table ++ "_foreign\" for relation \"" ++
    sourceTable ++ "\" already exists"

/-- Embedding of `EnsureForeignKey` (src/dbutils.go:22-36). `addFKErr` is
the error reported by `db.Model(model).AddForeignKey(column, table,
onDelete, onUpdate)`. Returns the function's result and the list of
`scope.Log` lines emitted. -/
def EnsureForeignKey (addFKErr : Option Err) (sourceTable column table : String) :
    Option Err × List String :=
  match addFKErr with
  | none => (none, [])
  | some e =>
    if e = fkExpectedMsg sourceTable column table then
      (none, ["Foreign-key constraint appears to already exist: " ++ e])
    else (some e, [])

/-- The SQL statement executed by `EnsureConstraint` (src/dbutils.go:45-47). -/
def constraintQuery (tableName name constraint : String) : String :=
  "ALTER TABLE " ++ pqQuote tableName ++ " ADD CONSTRAINT " ++ pqQuote name ++
    " " ++ constraint ++ ";"

/-- The expected already-exists message computed by `EnsureConstraint`
(src/dbutils.go:49). -/
def constraintExpectedMsg (name tableName : String) : String :=
  "pq: constraint \"" ++ name ++ "\" for relation \"" ++ tableName ++
    "\" already exists"

/-- Embedding of `EnsureConstraint` (src/dbutils.go:43-58). `exec` is the
database double: the error `db.Exec` reports for a given SQL string. -/
def EnsureConstraint (exec : String → Option Err) (tableName name constraint : String) :
    Option Err × List String :=
  match exec (constraintQuery tableName name constraint) with
  | none => (none, [])
  | some e =>
    if e = constraintExpectedMsg name tableName then
      (none, ["Constraint appears to already exist: " ++ e])
    else (some e, [])

/-- The SQL statement executed by `EnsureIndex` (src/dbutils.go:71-77). -/
def indexQuery (name constraint : String) (unique : Bool) : String :=
  (if unique then "CREATE UNIQUE INDEX " else "CREATE INDEX ") ++ pqQuote name ++
    " ON " ++ constraint ++ ";"

/-- The expected already-exists message computed by `EnsureIndex`
(src/dbutils.go:80); it is built from the index name alone. -/
def idxExpectedMsg (name : String) : String :=
  "pq: relation \"" ++ name ++ "\" already exists"

/-- Embedding of `EnsureIndex` (src/dbutils.go:69-89). -/
def EnsureIndex (exec : String → Option Err) (name constraint : String) (unique : Bool) :
    Option Err × List String :=
  match exec (indexQuery name constraint unique) with
  | none => (none, [])
  | some e =>
    if e = idxExpectedMsg name then
      (none, ["Index appears to already exist: " ++ e])
    else (some e, [])

theorem kmScan_nil : kmScan [] = [] := by
  simp [kmScan]

theorem kmScan_space_paren_match (cs g r : List Char) (h : kmGroup cs = some (g, r)) :
    kmScan (' ' :: '(' :: cs) = '_' :: (g ++ kmScan r) := by
  rw [kmScan]
  simp [h]
  split <;> simp_all

theorem kmScan_cons_nomatch (c : Char) (cs : List Char) (h1 : c ≠ '(')
    (h2 : ¬(c = ' ' ∧ cs.head? = some '(')) :
    kmScan (c :: cs) = c :: kmScan cs := by
  rw [kmScan]
  simp [h1, h2]

theorem kmGroup_closed :
    ∀ (col rest : List Char), col ≠ [] → (∀ c ∈ col, c ≠ ')') →
      kmGroup (col ++ ')' :: rest) = some (col, rest) := by
  intro col
  induction col with
  | nil => intro rest h2 _; exact absurd rfl h2
  | cons c col ih =>
    intro rest _ h3
    have hc : c ≠ ')' := h3 c (by simp)
    by_cases hcol : col = []
    · subst hcol
      simp [kmGroup, hc, kmDropParen]
    · have hrec := ih rest hcol (fun x hx => h3 x (by simp [hx]))
      simp [kmGroup, hc, List.cons_append, hrec]

theorem kmScan_table_column :
    ∀ (tbl col : List Char), '(' ∉ tbl → col ≠ [] → (∀ c ∈ col, c ≠ ')') →
      kmScan (tbl ++ ' ' :: '(' :: (col ++ [')'])) = tbl ++ '_' :: col := by
  intro tbl
  induction tbl with
  | nil =>
    intro col h1 h2 h3
    have hg : kmGroup (col ++ [')']) = some (col, []) := by
      simpa using kmGroup_closed col [] h2 h3
    rw [List.nil_append, kmScan_space_paren_match _ _ _ hg, kmScan_nil]
    simp
  | cons c tbl ih =>
    intro col h1 h2 h3
    have hc : c ≠ '(' := by
      intro hh
      exact h1 (by simp [hh])
    have h1' : '(' ∉ tbl := fun hh => h1 (by simp [hh])
    have hnm : ¬(c = ' ' ∧ (tbl ++ ' ' :: '(' :: (col ++ [')'])).head? = some '(') := by
      rintro ⟨_, hhd⟩
      cases tbl with
      | nil =>
        simp at hhd
      | cons d tbl' =>
        simp at hhd
        exact h1 (by simp [hhd])
    rw [List.cons_append, kmScan_cons_nomatch c _ hc hnm, ih col h1' h2 h3]
    simp

/-- Claim C3: for each of `EnsureForeignKey`, `EnsureConstraint` and
`EnsureIndex`: on a failed DDL execution the helper returns nil and emits
exactly one informational log if and only if the error message equals that
helper's precomputed already-exists template, and returns the error
unchanged with no log otherwise; on a successful execution it returns nil
and emits no log. -/
theorem ensure_already_exists_classification :
    (∀ st c t, EnsureForeignKey none st c t = (none, [])) ∧
    (∀ st c t e,
      EnsureForeignKey (some e) st c t =
        if e = fkExpectedMsg st c t then
          (none, ["Foreign-key constraint appears to already exist: " ++ e])
        else (some e, [])) ∧
    (∀ (exec : String → Option Err) tn n con,
      exec (constraintQuery tn n con) = none →
      EnsureConstraint exec tn n con = (none, [])) ∧
    (∀ (exec : String → Option Err) tn n con e,
      exec (constraintQuery tn n con) = some e →
      EnsureConstraint exec tn n con =
        if e = constraintExpectedMsg n tn then
          (none, ["Constraint appears to already exist: " ++ e])
        else (some e, [])) ∧
    (∀ (exec : String → Option Err) n con u,
      exec (indexQuery n con u) = none →
      EnsureIndex exec n con u = (none, [])) ∧
    (∀ (exec : String → Option Err) n con u e,
      exec (indexQuery n con u) = some e →
      EnsureIndex exec n con u =
        if e = idxExpectedMsg n then
          (none, ["Index appears to already exist: " ++ e])
        else (some e, [])) := by
  refine ⟨?_, ?_, ?_, ?_, ?_, ?_⟩
  · intro st c t; simp [EnsureForeignKey]
  · intro st c t e
    simp only [EnsureForeignKey]
  · intro exec tn n con h; simp [EnsureConstraint, h]
  · intro exec tn n con e h
    simp only [EnsureConstraint, h]
  · intro exec n con u h; simp [EnsureIndex, h]
  · intro exec n con u e h
    simp only [EnsureIndex, h]

/-- Witness for C3 at concrete inputs: a successful execution, a matching
already-exists error, and a non-matching error for each helper. -/
theorem ensure_already_exists_classification_witness :
    EnsureConstraint (fun _ => none) "t" "n" "c" = (none, []) ∧
    EnsureConstraint (fun _ => some "boom") "t" "n" "c" =
      (if "boom" = constraintExpectedMsg "n" "t" then
        (none, ["Constraint appears to already exist: " ++ "boom"])
      else (some "boom", [])) ∧
    EnsureIndex (fun _ => none) "i" "t (c)" true = (none, []) ∧
    EnsureIndex (fun _ => some (idxExpectedMsg "i")) "i" "t (c)" true =
      (if idxExpectedMsg "i" = idxExpectedMsg "i" then
        (none, ["Index appears to already exist: " ++ idxExpectedMsg "i"])
      else (some (idxExpectedMsg "i"), [])) :=
  ⟨ensure_already_exists_classification.2.2.1 (fun _ => none) "t" "n" "c" rfl,
   ensure_already_exists_classification.2.2.2.1 (fun _ => some "boom") "t" "n" "c" "boom" rfl,
   ensure_already_exists_classification.2.2.2.2.1 (fun _ => none) "i" "t (c)" true rfl,
   ensure_already_exists_classification.2.2.2.2.2 (fun _ => some (idxExpectedMsg "i"))
     "i" "t (c)" true (idxExpectedMsg "i") rfl⟩

/-- Claim C6: for a referenced-table description of the form
`table (column)` — with no `(` in the table part, a nonempty column part,
and no `)` in the column part — the `keyMatcher` replacement yields the
fragment `table_column`, and `EnsureForeignKey`'s expected already-exists
message embeds it as the constraint name
`sourceTable_column_table_column_foreign` for relation `sourceTable`; an
execution error equal to that message is swallowed. -/
theorem fk_naming_derivation (tbl col sourceTable column : String)
    (h1 : '(' ∉ tbl.data) (h2 : col ≠ "") (h3 : ')' ∉ col.data) :
    keyMatcherReplaceAll (tbl ++ " (" ++ col ++ ")") = tbl ++ "_" ++ col ∧
    fkExpectedMsg sourceTable column (tbl ++ " (" ++ col ++ ")") =
      "pq: constraint \"" ++ sourceTable ++ "_" ++ column ++ "_" ++ tbl ++ "_" ++ col ++
        "_foreign\" for relation \"" ++ sourceTable ++ "\" already exists" ∧
    (EnsureForeignKey (some (fkExpectedMsg sourceTable column (tbl ++ " (" ++ col ++ ")")))
        sourceTable column (tbl ++ " (" ++ col ++ ")")).fst = none := by
  have h2' : col.data ≠ [] := by
    intro hh
    exact h2 (String.ext (by simp [hh]))
  have h3' : ∀ c ∈ col.data, c ≠ ')' := by
    intro c hc he
    exact h3 (he ▸ hc)
  have hdata : (tbl ++ " (" ++ col ++ ")").data =
      tbl.data ++ ' ' :: '(' :: (col.data ++ [')']) := by
    simp [String.data_append]
  have hmain : keyMatcherReplaceAll (tbl ++ " (" ++ col ++ ")") = tbl ++ "_" ++ col := by
    apply String.ext
    show kmScan (tbl ++ " (" ++ col ++ ")").data = _
    rw [hdata, kmScan_table_column tbl.data col.data h1 h2' h3']
    simp [String.data_append]
  refine ⟨hmain, ?_, ?_⟩
  · apply String.ext
    simp [fkExpectedMsg, hmain, String.data_append]
  · simp [EnsureForeignKey]

/-- Witness for C6 at the concrete description `users (id)`. -/
theorem fk_naming_derivation_witness :
    keyMatcherReplaceAll ("users" ++ " (" ++ "id" ++ ")") = "users" ++ "_" ++ "id" ∧
    fkExpectedMsg "orders" "user_id" ("users" ++ " (" ++ "id" ++ ")") =
      "pq: constraint \"" ++ "orders" ++ "_" ++ "user_id" ++ "_" ++ "users" ++ "_" ++ "id" ++
        "_foreign\" for relation \"" ++ "orders" ++ "\" already exists" ∧
    (EnsureForeignKey (some (fkExpectedMsg "orders" "user_id" ("users" ++ " (" ++ "id" ++ ")")))
        "orders" "user_id" ("users" ++ " (" ++ "id" ++ ")")).fst = none :=
  fk_naming_derivation "users" "id" "orders" "user_id" (by decide) (by decide) (by decide)

/-- Claim C9: `EnsureIndex`'s already-exists classification depends only on
the index name: an execution error equal to `pq: relation "name" already
exists` is swallowed whatever the constraint definition and unique flag
are, and two runs whose executions report the same error for the same name
produce the same returned error, regardless of the index definition. -/
theorem ensureIndex_name_only_classification :
    (∀ (exec : String → Option Err) (name constraint : String) (unique : Bool),
      exec (indexQuery name constraint unique) = some (idxExpectedMsg name) →
      EnsureIndex exec name constraint unique =
        (none, ["Index appears to already exist: " ++ idxExpectedMsg name])) ∧
    (∀ (exec₁ exec₂ : String → Option Err) (name c₁ c₂ : String) (u₁ u₂ : Bool),
      exec₁ (indexQuery name c₁ u₁) = exec₂ (indexQuery name c₂ u₂) →
      (EnsureIndex exec₁ name c₁ u₁).fst = (EnsureIndex exec₂ name c₂ u₂).fst) := by
  constructor
  · intro exec name constraint unique h
    simp [EnsureIndex, h]
  · intro exec₁ exec₂ name c₁ c₂ u₁ u₂ h
    cases h2 : exec₂ (indexQuery name c₂ u₂) with
    | none => simp [EnsureIndex, h, h2]
    | some e =>
      simp only [EnsureIndex, h, h2]

/-- Witness for C9: a matching error is swallowed for a unique index over
an arbitrary definition, and the returned error agrees across two distinct
definitions and unique flags with the same execution error. -/
theorem ensureIndex_name_only_classification_witness :
    EnsureIndex (fun _ => some (idxExpectedMsg "i")) "i" "tbl (a, b)" true =
      (none, ["Index appears to already exist: " ++ idxExpectedMsg "i"]) ∧
    (EnsureIndex (fun _ => some "boom") "i" "tbl (a)" true).fst =
      (EnsureIndex (fun _ => some "boom") "i" "other (b)" false).fst :=
  ⟨ensureIndex_name_only_classification.1 (fun _ => some (idxExpectedMsg "i"))
      "i" "tbl (a, b)" true rfl,
   ensureIndex_name_only_classification.2 (fun _ => some "boom") (fun _ => some "boom")
      "i" "tbl (a)" "other (b)" true false rfl⟩

/-! ## Migration orchestrator (src/migrate.go; second variant in
src/unnamed/part_000)

Both files define `Migratable`, `ResetDB`, `AutoMigrate` and a
reverse-order destructive loop. The tables are opaque values; a table is
modelled by its identity (standing for its Go dynamic type) and whether it
implements `Migratable`. The gorm handle is a double mapping each table to
the error its per-table operation reports; every log line and database
call is recorded in an event trace. -/

/-- A table argument: its identity and whether the value implements the
`Migratable` interface (src/migrate.go:14-16). -/
structure Table where
  id : Nat
  migratable : Bool
deriving DecidableEq, Repr

/-- Double of the gorm handle for the migration functions: the error each
per-table operation reports, keyed by table identity. -/
structure MigDB where
  autoMigrateErr : Nat → Option Err
  afterMigrateErr : Nat → Option Err
  dropErr : Nat → Option Err
  truncErr : Nat → Option Err

/-- Observable steps of a migration-orchestrator run. -/
inductive Event where
  | logInfo (msg : String)
  | logDebug (t : Nat)
  | logCrit (t : Nat)
  | autoMigrateCall (t : Nat)
  | afterMigrateCall (t : Nat)
  | dropCall (t : Nat)
  | truncateCall (t : Nat)
deriving DecidableEq, Repr

/-- Is the event a database call (as opposed to a log line)? -/
def Event.isCall : Event → Bool
  | .autoMigrateCall _ => true
  | .afterMigrateCall _ => true
  | .dropCall _ => true
  | .truncateCall _ => true
  | _ => false

/-- Is the event a creation-side call (schema sync or post-migration hook)? -/
def Event.isCreateCall : Event → Bool
  | .autoMigrateCall _ => true
  | .afterMigrateCall _ => true
  | _ => false

/-- The database calls of a trace, log lines removed. -/
def calls (evs : List Event) : List Event := evs.filter Event.isCall

/-- The per-table loop of `AutoMigrate` (src/migrate.go:32-63): debug log,
schema sync (abort with critical log on error), then — when the table
implements `Migratable` — debug log and the `AfterMigrate` hook (abort
with critical log on error). -/
def autoMigrateLoop (db : MigDB) : List Table → List Event × Option Err
  | [] => ([], none)
  | t :: rest =>
    match db.autoMigrateErr t.id with
    | some e =>
      ([Event.logDebug t.id, Event.autoMigrateCall t.id, Event.logCrit t.id], some e)
    | none =>
      if t.migratable then
        match db.afterMigrateErr t.id with
        | some e =>
          ([Event.logDebug t.id, Event.autoMigrateCall t.id, Event.logDebug t.id,
            Event.afterMigrateCall t.id, Event.logCrit t.id], some e)
        | none =>
          let r := autoMigrateLoop db rest
          (Event.logDebug t.id :: Event.autoMigrateCall t.id :: Event.logDebug t.id ::
            Event.afterMigrateCall t.id :: r.1, r.2)
      else
        let r := autoMigrateLoop db rest
        (Event.logDebug t.id :: Event.autoMigrateCall t.id :: r.1, r.2)

/-- Embedding of `AutoMigrate` (src/migrate.go:29-67). -/
def AutoMigrate (db : MigDB) (tables : List Table) : List Event × Option Err :=
  let r := autoMigrateLoop db tables
  match r.2 with
  | some e => (Event.logInfo "running db auto-migration..." :: r.1, some e)
  | none =>
    (Event.logInfo "running db auto-migration..." ::
      r.1 ++ [Event.logInfo "db auto-migration done."], none)

/-- The per-table loop shared by `Drop` (src/migrate.go:75-91) and the
unnamed file's `Truncate` (src/unnamed/part_000:75-91): both call
`db.DropTableIfExists` on each table of the already-reversed list,
aborting with a critical log on the first error. -/
def dropLoop (db : MigDB) : List Table → List Event × Option Err
  | [] => ([], none)
  | t :: rest =>
    match db.dropErr t.id with
    | some e => ([Event.logDebug t.id, Event.dropCall t.id, Event.logCrit t.id], some e)
    | none =>
      let r := dropLoop db rest
      (Event.logDebug t.id :: Event.dropCall t.id :: r.1, r.2)

/-- Embedding of `Drop` (src/migrate.go:70-95): iterates the table list in
reverse order (`tables[len-i-1]`). -/
def Drop (db : MigDB) (tables : List Table) : List Event × Option Err :=
  let r := dropLoop db tables.reverse
  match r.2 with
  | some e => (Event.logInfo "running db drop" :: r.1, some e)
  | none => (Event.logInfo "running db drop" :: r.1 ++ [Event.logInfo "db drop complete"], none)

/-- The per-table loop of `Truncate` (src/migrate.go:103-120): executes
`TRUNCATE TABLE <quoted table name>` per table of the already-reversed
list, aborting with a critical log on the first error. -/
def truncLoop (db : MigDB) : List Table → List Event × Option Err
  | [] => ([], none)
  | t :: rest =>
    match db.truncErr t.id with
    | some e => ([Event.logDebug t.id, Event.truncateCall t.id, Event.logCrit t.id], some e)
    | none =>
      let r := truncLoop db rest
      (Event.logDebug t.id :: Event.truncateCall t.id :: r.1, r.2)

/-- Embedding of `Truncate` (src/migrate.go:98-124). -/
def Truncate (db : MigDB) (tables : List Table) : List Event × Option Err :=
  let r := truncLoop db tables.reverse
  match r.2 with
  | some e => (Event.logInfo "running db truncate" :: r.1, some e)
  | none =>
    (Event.logInfo "running db truncate" :: r.1 ++ [Event.logInfo "db truncate complete"], none)

/-- Embedding of `ResetDB` (src/migrate.go:19-25): `Drop`, then
`AutoMigrate`, short-circuiting on a drop error. -/
def ResetDB (db : MigDB) (tables : List Table) : List Event × Option Err :=
  match Drop db tables with
  | (evs, some e) => (evs, some e)
  | (evs, none) =>
    let r := AutoMigrate db tables
    (evs ++ r.1, r.2)

namespace Unnamed

/-- Embedding of the unnamed near-duplicate file's `Truncate`
(src/unnamed/part_000:70-95): the same loop as `Drop` — it calls
`db.DropTableIfExists` per table in reverse order — only the
informational/debug log text differs. -/
def Truncate (db : MigDB) (tables : List Table) : List Event × Option Err :=
  let r := dropLoop db tables.reverse
  match r.2 with
  | some e => (Event.logInfo "running db truncation" :: r.1, some e)
  | none =>
    (Event.logInfo "running db truncation" :: r.1 ++ [Event.logInfo "db truncation complete"],
      none)

/-- Embedding of the unnamed file's `ResetDB` (src/unnamed/part_000:19-25):
its `Truncate` (which drops tables), then `AutoMigrate`. -/
def ResetDB (db : MigDB) (tables : List Table) : List Event × Option Err :=
  match Unnamed.Truncate db tables with
  | (evs, some e) => (evs, some e)
  | (evs, none) =>
    let r := AutoMigrate db tables
    (evs ++ r.1, r.2)

end Unnamed

/-- Table `t` migrates cleanly under `db`: its schema sync succeeds and,
when it implements `Migratable`, its hook succeeds too. -/
def tableOK (db : MigDB) (t : Table) : Prop :=
  db.autoMigrateErr t.id = none ∧ (t.migratable = true → db.afterMigrateErr t.id = none)

instance (db : MigDB) (t : Table) : Decidable (tableOK db t) := by
  unfold tableOK
  infer_instance

/-- Events of one fully-successful `AutoMigrate` iteration. -/
def okEvents (t : Table) : List Event :=
  Event.logDebug t.id :: Event.autoMigrateCall t.id ::
    (if t.migratable then [Event.logDebug t.id, Event.afterMigrateCall t.id] else [])

/-- Events of a fully-successful `AutoMigrate` run over a list. -/
def okEventsList : List Table → List Event
  | [] => []
  | t :: rest => okEvents t ++ okEventsList rest

/-- Database calls of one fully-successful `AutoMigrate` iteration. -/
def okCalls (t : Table) : List Event :=
  Event.autoMigrateCall t.id :: (if t.migratable then [Event.afterMigrateCall t.id] else [])

/-- Database calls of a fully-successful `AutoMigrate` run over a list. -/
def okCallsList : List Table → List Event
  | [] => []
  | t :: rest => okCalls t ++ okCallsList rest

/-- Events of a successful destructive loop over a (reversed) list. -/
def dropEventsList : List Table → List Event
  | [] => []
  | t :: rest => Event.logDebug t.id :: Event.dropCall t.id :: dropEventsList rest

/-- Events of a successful `Truncate` loop over a (reversed) list. -/
def truncEventsList : List Table → List Event
  | [] => []
  | t :: rest => Event.logDebug t.id :: Event.truncateCall t.id :: truncEventsList rest

/-- The drop calls for a list of tables, in list order. -/
def dropCallsList (l : List Table) : List Event := l.map (fun t => Event.dropCall t.id)

/-- The truncate calls for a list of tables, in list order. -/
def truncCallsList (l : List Table) : List Event := l.map (fun t => Event.truncateCall t.id)

theorem calls_append (a b : List Event) : calls (a ++ b) = calls a ++ calls b := by
  simp [calls, List.filter_append]

theorem calls_okEvents (t : Table) : calls (okEvents t) = okCalls t := by
  cases h : t.migratable <;>
    simp [okEvents, okCalls, calls, Event.isCall, h]

theorem calls_okEventsList (l : List Table) : calls (okEventsList l) = okCallsList l := by
  induction l with
  | nil => simp [okEventsList, okCallsList, calls]
  | cons t rest ih => simp [okEventsList, okCallsList, calls_append, calls_okEvents, ih]

theorem calls_dropEventsList (l : List Table) : calls (dropEventsList l) = dropCallsList l := by
  induction l with
  | nil => simp [dropEventsList, dropCallsList, calls]
  | cons t rest ih =>
    simp [dropEventsList, dropCallsList, calls, Event.isCall] at ih ⊢
    exact ih

theorem calls_truncEventsList (l : List Table) : calls (truncEventsList l) = truncCallsList l := by
  induction l with
  | nil => simp [truncEventsList, truncCallsList, calls]
  | cons t rest ih =>
    simp [truncEventsList, truncCallsList, calls, Event.isCall] at ih ⊢
    exact ih

theorem autoMigrateLoop_ok_append (db : MigDB) :
    ∀ (pre rest : List Table), (∀ t ∈ pre, tableOK db t) →
      autoMigrateLoop db (pre ++ rest) =
        (okEventsList pre ++ (autoMigrateLoop db rest).1, (autoMigrateLoop db rest).2) := by
  intro pre
  induction pre with
  | nil => intro rest _; simp [okEventsList]
  | cons t pre ih =>
    intro rest hok
    have ht := hok t (by simp)
    have ihr := ih rest (fun u hu => hok u (by simp [hu]))
    cases hm : t.migratable with
    | true =>
      have h2 := ht.2 hm
      simp [autoMigrateLoop, ht.1, h2, hm, okEventsList, okEvents, ihr]
    | false =>
      simp [autoMigrateLoop, ht.1, hm, okEventsList, okEvents, ihr]

theorem dropLoop_ok (db : MigDB) :
    ∀ (l : List Table), (∀ t ∈ l, db.dropErr t.id = none) →
      dropLoop db l = (dropEventsList l, none) := by
  intro l
  induction l with
  | nil => intro _; simp [dropLoop, dropEventsList]
  | cons t rest ih =>
    intro hok
    have ht := hok t (by simp)
    have ihr := ih (fun u hu => hok u (by simp [hu]))
    simp [dropLoop, ht, dropEventsList, ihr]

theorem dropLoop_first_err (db : MigDB) :
    ∀ (pre : List Table) (t : Table) (post : List Table) (e : Err),
      (∀ u ∈ pre, db.dropErr u.id = none) → db.dropErr t.id = some e →
      dropLoop db (pre ++ t :: post) =
        (dropEventsList pre ++
          [Event.logDebug t.id, Event.dropCall t.id, Event.logCrit t.id], some e) := by
  intro pre
  induction pre with
  | nil => intro t post e _ ht; simp [dropLoop, ht, dropEventsList]
  | cons u pre ih =>
    intro t post e hok ht
    have hu := hok u (by simp)
    have ihr := ih t post e (fun v hv => hok v (by simp [hv])) ht
    simp [dropLoop, hu, dropEventsList, ihr]

theorem truncLoop_ok (db : MigDB) :
    ∀ (l : List Table), (∀ t ∈ l, db.truncErr t.id = none) →
      truncLoop db l = (truncEventsList l, none) := by
  intro l
  induction l with
  | nil => intro _; simp [truncLoop, truncEventsList]
  | cons t rest ih =>
    intro hok
    have ht := hok t (by simp)
    have ihr := ih (fun u hu => hok u (by simp [hu]))
    simp [truncLoop, ht, truncEventsList, ihr]

theorem truncLoop_first_err (db : MigDB) :
    ∀ (pre : List Table) (t : Table) (post : List Table) (e : Err),
      (∀ u ∈ pre, db.truncErr u.id = none) → db.truncErr t.id = some e →
      truncLoop db (pre ++ t :: post) =
        (truncEventsList pre ++
          [Event.logDebug t.id, Event.truncateCall t.id, Event.logCrit t.id], some e) := by
  intro pre
  induction pre with
  | nil => intro t post e _ ht; simp [truncLoop, ht, truncEventsList]
  | cons u pre ih =>
    intro t post e hok ht
    have hu := hok u (by simp)
    have ihr := ih t post e (fun v hv => hok v (by simp [hv])) ht
    simp [truncLoop, hu, truncEventsList, ihr]

theorem dropLoop_no_create (db : MigDB) :
    ∀ (l : List Table), ((dropLoop db l).1).filter Event.isCreateCall = [] := by
  intro l
  induction l with
  | nil => simp [dropLoop]
  | cons t rest ih =>
    cases h : db.dropErr t.id with
    | some e => simp [dropLoop, h, Event.isCreateCall]
    | none => simp [dropLoop, h, Event.isCreateCall, ih]

theorem calls_nil : calls [] = [] := by
  simp [calls]

theorem calls_cons (e : Event) (l : List Event) :
    calls (e :: l) = if Event.isCall e then e :: calls l else calls l := by
  simp [calls, List.filter_cons]

/-- A database double on which every operation succeeds. -/
def allOkDB : MigDB := ⟨fun _ => none, fun _ => none, fun _ => none, fun _ => none⟩

/-- Every operation succeeds except the `AfterMigrate` hook of table 2. -/
def hookFailDB : MigDB :=
  ⟨fun _ => none, fun n => if n = 2 then some "hook failed" else none,
    fun _ => none, fun _ => none⟩

/-- Every operation succeeds except the schema sync of table 2. -/
def syncFailDB : MigDB :=
  ⟨fun n => if n = 2 then some "sync failed" else none, fun _ => none,
    fun _ => none, fun _ => none⟩

/-- Every operation succeeds except dropping table 1. -/
def dropFailDB : MigDB :=
  ⟨fun _ => none, fun _ => none,
    fun n => if n = 1 then some "drop failed" else none, fun _ => none⟩

/-- Every operation succeeds except truncating table 1. -/
def truncFailDB : MigDB :=
  ⟨fun _ => none, fun _ => none, fun _ => none,
    fun n => if n = 1 then some "trunc failed" else none⟩

/-- Claim C4: `AutoMigrate` syncs the tables in list order, runs each
`Migratable` table's `AfterMigrate` hook immediately after that table's
successful sync, and fails fast: when — after a fully-successful prefix —
a table's hook fails with `e`, the call trace is exactly the prefix's
calls followed by that table's sync and hook, no later table is processed,
and the result is exactly `e`; symmetrically a schema-sync error aborts
before that table's hook and any later table and is returned unchanged. -/
theorem autoMigrate_failfast :
    (∀ (db : MigDB) (pre : List Table) (c : Table) (post : List Table) (e : Err),
      (∀ t ∈ pre, tableOK db t) → c.migratable = true →
      db.autoMigrateErr c.id = none → db.afterMigrateErr c.id = some e →
      (AutoMigrate db (pre ++ c :: post)).2 = some e ∧
      calls (AutoMigrate db (pre ++ c :: post)).1 =
        okCallsList pre ++ [Event.autoMigrateCall c.id, Event.afterMigrateCall c.id]) ∧
    (∀ (db : MigDB) (pre : List Table) (c : Table) (post : List Table) (e : Err),
      (∀ t ∈ pre, tableOK db t) → db.autoMigrateErr c.id = some e →
      (AutoMigrate db (pre ++ c :: post)).2 = some e ∧
      calls (AutoMigrate db (pre ++ c :: post)).1 =
        okCallsList pre ++ [Event.autoMigrateCall c.id]) := by
  constructor
  · intro db pre c post e hok hm hs hh
    have hloop := autoMigrateLoop_ok_append db pre (c :: post) hok
    have hc : autoMigrateLoop db (c :: post) =
        ([Event.logDebug c.id, Event.autoMigrateCall c.id, Event.logDebug c.id,
          Event.afterMigrateCall c.id, Event.logCrit c.id], some e) := by
      simp [autoMigrateLoop, hs, hm, hh]
    rw [hc] at hloop
    refine ⟨by simp [AutoMigrate, hloop], ?_⟩
    simp [AutoMigrate, hloop, calls_cons, calls_append, calls_okEventsList, calls_nil,
      Event.isCall]
  · intro db pre c post e hok hs
    have hloop := autoMigrateLoop_ok_append db pre (c :: post) hok
    have hc : autoMigrateLoop db (c :: post) =
        ([Event.logDebug c.id, Event.autoMigrateCall c.id, Event.logCrit c.id], some e) := by
      simp [autoMigrateLoop, hs]
    rw [hc] at hloop
    refine ⟨by simp [AutoMigrate, hloop], ?_⟩
    simp [AutoMigrate, hloop, calls_cons, calls_append, calls_okEventsList, calls_nil,
      Event.isCall]

/-- Witness for C4 over `[A, B, C, D]`: C's hook failure (with A, B fully
successful) and C's sync failure both abort before D with C's error. -/
theorem autoMigrate_failfast_witness :
    ((AutoMigrate hookFailDB ([⟨0, false⟩, ⟨1, true⟩] ++ ⟨2, true⟩ :: [⟨3, false⟩])).2 =
      some "hook failed" ∧
    calls (AutoMigrate hookFailDB ([⟨0, false⟩, ⟨1, true⟩] ++ ⟨2, true⟩ :: [⟨3, false⟩])).1 =
      okCallsList [⟨0, false⟩, ⟨1, true⟩] ++
        [Event.autoMigrateCall 2, Event.afterMigrateCall 2]) ∧
    ((AutoMigrate syncFailDB ([⟨0, false⟩, ⟨1, true⟩] ++ ⟨2, false⟩ :: [⟨3, true⟩])).2 =
      some "sync failed" ∧
    calls (AutoMigrate syncFailDB ([⟨0, false⟩, ⟨1, true⟩] ++ ⟨2, false⟩ :: [⟨3, true⟩])).1 =
      okCallsList [⟨0, false⟩, ⟨1, true⟩] ++ [Event.autoMigrateCall 2]) :=
  ⟨autoMigrate_failfast.1 hookFailDB [⟨0, false⟩, ⟨1, true⟩] ⟨2, true⟩ [⟨3, false⟩]
      "hook failed" (by decide) rfl rfl rfl,
   autoMigrate_failfast.2 syncFailDB [⟨0, false⟩, ⟨1, true⟩] ⟨2, false⟩ [⟨3, true⟩]
      "sync failed" (by decide) rfl⟩

/-- Claim C5: `Drop` and `Truncate` issue their per-table destructive call
in reverse list order, stopping at the first error; `ResetDB` issues all
destruction calls (in reverse order, with no creation call among them)
before any creation call, issues creation calls in forward order, and
short-circuits on a destruction error. -/
theorem drop_truncate_reverse_and_resetdb :
    (∀ (db : MigDB) (tables : List Table),
      (∀ t ∈ tables, db.dropErr t.id = none) →
      calls (Drop db tables).1 = dropCallsList tables.reverse ∧
      (Drop db tables).2 = none) ∧
    (∀ (db : MigDB) (tables rpre rpost : List Table) (t : Table) (e : Err),
      tables.reverse = rpre ++ t :: rpost →
      (∀ u ∈ rpre, db.dropErr u.id = none) → db.dropErr t.id = some e →
      calls (Drop db tables).1 = dropCallsList rpre ++ [Event.dropCall t.id] ∧
      (Drop db tables).2 = some e) ∧
    (∀ (db : MigDB) (tables : List Table),
      (∀ t ∈ tables, db.truncErr t.id = none) →
      calls (Truncate db tables).1 = truncCallsList tables.reverse ∧
      (Truncate db tables).2 = none) ∧
    (∀ (db : MigDB) (tables rpre rpost : List Table) (t : Table) (e : Err),
      tables.reverse = rpre ++ t :: rpost →
      (∀ u ∈ rpre, db.truncErr u.id = none) → db.truncErr t.id = some e →
      calls (Truncate db tables).1 = truncCallsList rpre ++ [Event.truncateCall t.id] ∧
      (Truncate db tables).2 = some e) ∧
    (∀ (db : MigDB) (tables : List Table) (e : Err),
      (Drop db tables).2 = some e →
      ResetDB db tables = ((Drop db tables).1, some e)) ∧
    (∀ (db : MigDB) (tables : List Table),
      (Drop db tables).2 = none →
      (ResetDB db tables).1 = (Drop db tables).1 ++ (AutoMigrate db tables).1 ∧
      (ResetDB db tables).2 = (AutoMigrate db tables).2) ∧
    (∀ (db : MigDB) (tables : List Table),
      ((Drop db tables).1).filter Event.isCreateCall = []) ∧
    (∀ (db : MigDB) (tables : List Table),
      (∀ t ∈ tables, tableOK db t) →
      calls (AutoMigrate db tables).1 = okCallsList tables) := by
  refine ⟨?_, ?_, ?_, ?_, ?_, ?_, ?_, ?_⟩
  · intro db tables h
    have hloop := dropLoop_ok db tables.reverse (fun t ht => h t (List.mem_reverse.mp ht))
    constructor
    · simp [Drop, hloop, calls_cons, calls_append, calls_dropEventsList, calls_nil,
        Event.isCall]
    · simp [Drop, hloop]
  · intro db tables rpre rpost t e hrev hok ht
    have hloop := dropLoop_first_err db rpre t rpost e hok ht
    rw [← hrev] at hloop
    constructor
    · simp [Drop, hloop, calls_cons, calls_append, calls_dropEventsList, calls_nil,
        Event.isCall]
    · simp [Drop, hloop]
  · intro db tables h
    have hloop := truncLoop_ok db tables.reverse (fun t ht => h t (List.mem_reverse.mp ht))
    constructor
    · simp [Truncate, hloop, calls_cons, calls_append, calls_truncEventsList, calls_nil,
        Event.isCall]
    · simp [Truncate, hloop]
  · intro db tables rpre rpost t e hrev hok ht
    have hloop := truncLoop_first_err db rpre t rpost e hok ht
    rw [← hrev] at hloop
    constructor
    · simp [Truncate, hloop, calls_cons, calls_append, calls_truncEventsList, calls_nil,
        Event.isCall]
    · simp [Truncate, hloop]
  · intro db tables e h
    rcases hD : Drop db tables with ⟨evs, r⟩
    rw [hD] at h
    simp at h
    subst h
    simp [ResetDB, hD]
  · intro db tables h
    rcases hD : Drop db tables with ⟨evs, r⟩
    rw [hD] at h
    simp at h
    subst h
    simp [ResetDB, hD]
  · intro db tables
    rcases hloop : dropLoop db tables.reverse with ⟨evs, r⟩
    have hnc := dropLoop_no_create db tables.reverse
    rw [hloop] at hnc
    simp at hnc
    cases r with
    | some e =>
      simp [Drop, hloop, List.filter_append, Event.isCreateCall]
      exact hnc
    | none =>
      simp [Drop, hloop, List.filter_append, Event.isCreateCall]
      exact hnc
  · intro db tables h
    have hloop := autoMigrateLoop_ok_append db tables [] h
    simp [autoMigrateLoop] at hloop
    simp [AutoMigrate, hloop, calls_cons, calls_append, calls_okEventsList, calls_nil,
      Event.isCall]

/-- Witness for C5 over `[A, B, C]` (with `⟨1, _⟩` as B): complete and
interrupted destruction runs, `ResetDB`'s short-circuit and composition,
and a fully-successful forward `AutoMigrate`. -/
theorem drop_truncate_reverse_and_resetdb_witness :
    (calls (Drop allOkDB [⟨0, false⟩, ⟨1, true⟩, ⟨2, false⟩]).1 =
      dropCallsList [⟨0, false⟩, ⟨1, true⟩, ⟨2, false⟩].reverse ∧
      (Drop allOkDB [⟨0, false⟩, ⟨1, true⟩, ⟨2, false⟩]).2 = none) ∧
    (calls (Drop dropFailDB [⟨0, false⟩, ⟨1, true⟩, ⟨2, false⟩]).1 =
      dropCallsList [⟨2, false⟩] ++ [Event.dropCall 1] ∧
      (Drop dropFailDB [⟨0, false⟩, ⟨1, true⟩, ⟨2, false⟩]).2 = some "drop failed") ∧
    (calls (Truncate allOkDB [⟨0, false⟩, ⟨1, true⟩, ⟨2, false⟩]).1 =
      truncCallsList [⟨0, false⟩, ⟨1, true⟩, ⟨2, false⟩].reverse ∧
      (Truncate allOkDB [⟨0, false⟩, ⟨1, true⟩, ⟨2, false⟩]).2 = none) ∧
    (calls (Truncate truncFailDB [⟨0, false⟩, ⟨1, true⟩, ⟨2, false⟩]).1 =
      truncCallsList [⟨2, false⟩] ++ [Event.truncateCall 1] ∧
      (Truncate truncFailDB [⟨0, false⟩, ⟨1, true⟩, ⟨2, false⟩]).2 = some "trunc failed") ∧
    ResetDB dropFailDB [⟨0, false⟩, ⟨1, true⟩, ⟨2, false⟩] =
      ((Drop dropFailDB [⟨0, false⟩, ⟨1, true⟩, ⟨2, false⟩]).1, some "drop failed") ∧
    ((ResetDB allOkDB [⟨0, false⟩, ⟨1, true⟩]).1 =
      (Drop allOkDB [⟨0, false⟩, ⟨1, true⟩]).1 ++ (AutoMigrate allOkDB [⟨0, false⟩, ⟨1, true⟩]).1 ∧
      (ResetDB allOkDB [⟨0, false⟩, ⟨1, true⟩]).2 =
        (AutoMigrate allOkDB [⟨0, false⟩, ⟨1, true⟩]).2) ∧
    calls (AutoMigrate allOkDB [⟨0, false⟩, ⟨1, true⟩]).1 =
      okCallsList [⟨0, false⟩, ⟨1, true⟩] :=
  ⟨drop_truncate_reverse_and_resetdb.1 allOkDB _ (by decide),
   drop_truncate_reverse_and_resetdb.2.1 dropFailDB [⟨0, false⟩, ⟨1, true⟩, ⟨2, false⟩]
     [⟨2, false⟩] [⟨0, false⟩] ⟨1, true⟩ "drop failed" (by decide) (by decide) rfl,
   drop_truncate_reverse_and_resetdb.2.2.1 allOkDB _ (by decide),
   drop_truncate_reverse_and_resetdb.2.2.2.1 truncFailDB [⟨0, false⟩, ⟨1, true⟩, ⟨2, false⟩]
     [⟨2, false⟩] [⟨0, false⟩] ⟨1, true⟩ "trunc failed" (by decide) (by decide) rfl,
   drop_truncate_reverse_and_resetdb.2.2.2.2.1 dropFailDB _ "drop failed" (by decide),
   drop_truncate_reverse_and_resetdb.2.2.2.2.2.1 allOkDB [⟨0, false⟩, ⟨1, true⟩] (by decide),
   drop_truncate_reverse_and_resetdb.2.2.2.2.2.2.2 allOkDB [⟨0, false⟩, ⟨1, true⟩] (by decide)⟩

/-- Claim C7 counterexample: on a one-table list against a double where
every operation succeeds, both `ResetDB` variants issue exactly a
drop-table call followed by the schema sync — the unnamed variant never
issues a truncate call — so the two `ResetDB` variants do not differ in
whether the prior table is dropped or merely emptied. -/
theorem resetdb_variants_both_drop_counterexample :
    calls (ResetDB allOkDB [⟨0, false⟩]).1 = [Event.dropCall 0, Event.autoMigrateCall 0] ∧
    calls (Unnamed.ResetDB allOkDB [⟨0, false⟩]).1 =
      [Event.dropCall 0, Event.autoMigrateCall 0] ∧
    Event.truncateCall 0 ∉ (Unnamed.ResetDB allOkDB [⟨0, false⟩]).1 := by
  decide

/-- Claim C7 (amended): the two `Truncate` definitions are indeed not
equivalent — `migrate.go`'s issues a `TRUNCATE TABLE` statement per table
while the unnamed file's invokes drop-table-if-exists per table, sharing
`Drop`'s loop — but the corresponding `ResetDB` variants do not differ in
whether prior tables are dropped or merely emptied: both drop (migrate.go's
via `Drop`, the unnamed one via its drop-based `Truncate`), issuing
identical database-call traces and results on every input. -/
theorem truncate_variants_differ_resetdb_variants_agree :
    (Truncate allOkDB [⟨0, false⟩]).1 =
      [Event.logInfo "running db truncate", Event.logDebug 0, Event.truncateCall 0,
        Event.logInfo "db truncate complete"] ∧
    (Unnamed.Truncate allOkDB [⟨0, false⟩]).1 =
      [Event.logInfo "running db truncation", Event.logDebug 0, Event.dropCall 0,
        Event.logInfo "db truncation complete"] ∧
    calls (Truncate allOkDB [⟨0, false⟩]).1 ≠ calls (Unnamed.Truncate allOkDB [⟨0, false⟩]).1 ∧
    (∀ (db : MigDB) (tables : List Table),
      calls (Unnamed.Truncate db tables).1 = calls (Drop db tables).1 ∧
      (Unnamed.Truncate db tables).2 = (Drop db tables).2) ∧
    (∀ (db : MigDB) (tables : List Table),
      calls (ResetDB db tables).1 = calls (Unnamed.ResetDB db tables).1 ∧
      (ResetDB db tables).2 = (Unnamed.ResetDB db tables).2) := by
  refine ⟨by decide, by decide, by decide, ?_, ?_⟩
  · intro db tables
    rcases hloop : dropLoop db tables.reverse with ⟨evs, r⟩
    cases r <;>
      simp [Drop, Unnamed.Truncate, hloop, calls_cons, calls_append, calls_nil, Event.isCall]
  · intro db tables
    rcases hloop : dropLoop db tables.reverse with ⟨evs, r⟩
    cases r with
    | none =>
      simp [ResetDB, Unnamed.ResetDB, Drop, Unnamed.Truncate, hloop, calls_cons,
        calls_append, calls_nil, Event.isCall]
    | some e =>
      simp [ResetDB, Unnamed.ResetDB, Drop, Unnamed.Truncate, hloop, calls_cons,
        calls_append, calls_nil, Event.isCall]

/-- Claim C10: on the empty table list, `AutoMigrate`, `Drop`, `Truncate`
and `ResetDB` return nil, invoke no per-table database operation and no
hook, and emit only their boundary informational log lines (for `ResetDB`,
those of its two sub-operations). -/
theorem empty_list_noop (db : MigDB) :
    AutoMigrate db [] =
      ([Event.logInfo "running db auto-migration...",
        Event.logInfo "db auto-migration done."], none) ∧
    Drop db [] =
      ([Event.logInfo "running db drop", Event.logInfo "db drop complete"], none) ∧
    Truncate db [] =
      ([Event.logInfo "running db truncate", Event.logInfo "db truncate complete"], none) ∧
    ResetDB db [] =
      ([Event.logInfo "running db drop", Event.logInfo "db drop complete",
        Event.logInfo "running db auto-migration...",
        Event.logInfo "db auto-migration done."], none) :=
  ⟨rfl, rfl, rfl, rfl⟩

/-! ## ToUpdateColumnsMap (src/dbutils.go:118-125)

`ToUpdateColumnsMap` iterates `db.NewScope(structval).Fields()` and builds
a Go map from the prefixed database column name of each field to the
field's current value. The scope's field list is the input; the Go map is
modelled as an association list with Go's overwrite-on-assignment
semantics. -/

/-- A Go `interface` value held by a struct field (what `f.Field.Interface()`
returns), as far as the concrete example needs. -/
inductive GoVal where
  | int (n : Int)
  | str (s : String)
deriving DecidableEq, Repr

/-- One entry of `db.NewScope(structval).Fields()`: the field's database
column name (`f.DBName`) and its current value (`f.Field.Interface()`). -/
structure GField (α : Type) where
  dbName : String
  value : α
deriving DecidableEq, Repr

/-- Go map assignment `r[k] = v`: overwrite the entry when the key is
present, otherwise add one. -/
def mapInsert {α : Type} (m : List (String × α)) (k : String) (v : α) :
    List (String × α) :=
  if m.any (fun kv => kv.1 = k) then
    m.map (fun kv => if kv.1 = k then (k, v) else kv)
  else m ++ [(k, v)]

/-- Embedding of `ToUpdateColumnsMap` (src/dbutils.go:118-125): fold the
scope's fields into a map keyed by the prefix concatenated with the
field's database column name. -/
def ToUpdateColumnsMap {α : Type} (pfx : String) (fields : List (GField α)) :
    List (String × α) :=
  fields.foldl (fun m f => mapInsert m (pfx ++ f.dbName) f.value) []

theorem str_append_left_cancel (p a b : String) (h : p ++ a = p ++ b) : a = b := by
  apply String.ext
  have hd := congrArg String.data h
  simp [String.data_append] at hd
  exact hd

theorem mapInsert_fresh {α : Type} (m : List (String × α)) (k : String) (v : α)
    (h : k ∉ m.map Prod.fst) : mapInsert m k v = m ++ [(k, v)] := by
  unfold mapInsert
  have : m.any (fun kv => kv.1 = k) = false := by
    simp only [List.any_eq_false, decide_eq_true_eq]
    intro kv hkv he
    exact h (he ▸ List.mem_map_of_mem Prod.fst hkv)
  simp [this]

theorem toUpdateColumnsMap_foldl {α : Type} (pfx : String) :
    ∀ (fields : List (GField α)) (m : List (String × α)),
      (∀ f ∈ fields, (pfx ++ f.dbName) ∉ m.map Prod.fst) →
      (fields.map (fun f => pfx ++ f.dbName)).Nodup →
      fields.foldl (fun m f => mapInsert m (pfx ++ f.dbName) f.value) m =
        m ++ fields.map (fun f => (pfx ++ f.dbName, f.value)) := by
  intro fields
  induction fields with
  | nil => intro m _ _; simp
  | cons f rest ih =>
    intro m hfresh hnodup
    have hf : (pfx ++ f.dbName) ∉ m.map Prod.fst := hfresh f (by simp)
    have hnodup' : (rest.map (fun g => pfx ++ g.dbName)).Nodup := by
      simpa using hnodup.of_cons
    have hhead : ∀ g ∈ rest, pfx ++ g.dbName ≠ pfx ++ f.dbName := by
      intro g hg he
      have := List.rel_of_pairwise_cons hnodup (List.mem_map_of_mem _ hg)
      exact this he.symm
    have hfresh' : ∀ g ∈ rest, (pfx ++ g.dbName) ∉ (m ++ [(pfx ++ f.dbName, f.value)]).map Prod.fst := by
      intro g hg
      simp only [List.map_append, List.mem_append]
      rintro (hin | hin)
      · exact hfresh g (by simp [hg]) hin
      · simp at hin
        exact hhead g hg hin
    rw [List.foldl_cons, mapInsert_fresh m _ _ hf, ih _ hfresh' hnodup']
    simp

/-- Claim C8: for every prefix and every field list the schema layer
reports (with pairwise-distinct column names, as a schema's persisted
columns have), `ToUpdateColumnsMap` returns the map with exactly one entry
per field, keying the prefix concatenated with the field's column name to
the field's current value; in particular, with prefix `new_` on an entity
with persisted fields `id = 1` and `name = "x"`, the result is exactly
`new_id = 1, new_name = "x"`. -/
theorem toUpdateColumnsMap_spec :
    (∀ (α : Type) (pfx : String) (fields : List (GField α)),
      (fields.map (fun f => f.dbName)).Nodup →
      ToUpdateColumnsMap pfx fields =
        fields.map (fun f => (pfx ++ f.dbName, f.value))) ∧
    ToUpdateColumnsMap "new_" [⟨"id", GoVal.int 1⟩, ⟨"name", GoVal.str "x"⟩] =
      [("new_id", GoVal.int 1), ("new_name", GoVal.str "x")] := by
  constructor
  · intro α pfx fields hnodup
    have hinj : (fields.map (fun f => pfx ++ f.dbName)).Nodup := by
      have : fields.map (fun f => pfx ++ f.dbName) =
          (fields.map (fun f => f.dbName)).map (fun s => pfx ++ s) := by
        simp [List.map_map]
      rw [this]
      exact hnodup.map (fun a b hab => str_append_left_cancel pfx a b hab)
    have := toUpdateColumnsMap_foldl pfx fields [] (by simp) hinj
    simpa [ToUpdateColumnsMap] using this
  · decide

/-- Witness for C8 at a two-field entity with distinct column names. -/
theorem toUpdateColumnsMap_spec_witness :
    ToUpdateColumnsMap "new_" [⟨"id", GoVal.int 1⟩, ⟨"name", GoVal.str "x"⟩] =
      ([⟨"id", GoVal.int 1⟩, ⟨"name", GoVal.str "x"⟩] : List (GField GoVal)).map
        (fun f => ("new_" ++ f.dbName, f.value)) :=
  toUpdateColumnsMap_spec.1 GoVal "new_"
    [⟨"id", GoVal.int 1⟩, ⟨"name", GoVal.str "x"⟩] (by decide)

end Gormutils
